import Mathlib

/-
Verification of the ATLAS dual-disk CPR model
(src/ATLAS/dual_disk_cpr_model.py).

Shallow embedding conventions:
* Python floats are modelled as exact rationals (ℚ).  All the claims under
  study are about exact formulas and branch structure, which the rational
  model captures.
* Python raises ZeroDivisionError on float division by zero; a fallible
  computation is therefore modelled as `Option`, where `none` is the raised
  exception and `some v` a normal return.  Division subterms are checked in
  Python's left-to-right evaluation order.
* `np.log` is a total float function (it never raises, returning nan or
  -inf on non-positive input); it is modelled as an abstract parameter
  `lg : ℚ → ℚ`, so every theorem proved about `compute_ucpr` holds for any
  interpretation of the logarithm.
-/

namespace ATLAS

/-- DiskType dataclass: name, write throughput as log disk, read throughput
as data disk, price per GB. -/
structure DiskType where
  name : String
  W : ℚ
  R : ℚ
  M : ℚ
deriving DecidableEq

/-- cost_of_configuration: C_total = C_server + V_i * M_i + V_j * M_j. -/
def cost_of_configuration (C_server V_i V_j M_i M_j : ℚ) : ℚ :=
  C_server + V_i * M_i + V_j * M_j

/-- throughput_of_configuration: returns 1.0 / (r / R_j + (1 - r) / W_i).
In Python each of the three divisions raises ZeroDivisionError when its
divisor is zero, evaluated left to right: first r / R_j, then
(1 - r) / W_i, then the outer reciprocal. -/
def throughput_of_configuration (W_i R_j r : ℚ) : Option ℚ :=
  if R_j = 0 then none
  else if W_i = 0 then none
  else
    let d := r / R_j + (1 - r) / W_i
    if d = 0 then none else some (1 / d)

/-- cpr: P / C_total, raising on a zero cost. -/
def cpr (P C_total : ℚ) : Option ℚ :=
  if C_total = 0 then none else some (P / C_total)

/-- One row of the DataFrame built by evaluate_all_configs. -/
structure ConfigRow where
  log_disk : String
  data_disk : String
  r : ℚ
  P_ops_per_s : ℚ
  C_total : ℚ
  CPR : ℚ
deriving DecidableEq

/-- The body of the inner loop of evaluate_all_configs: compute P, C_total
and CPR for one (disk_i, disk_j, r) triple and build the row. -/
def config_row (C_server V_i V_j : ℚ) (disk_i disk_j : DiskType) (r : ℚ) :
    Option ConfigRow := do
  let P ← throughput_of_configuration disk_i.W disk_j.R r
  let C_total := cost_of_configuration C_server V_i V_j disk_i.M disk_j.M
  let c ← cpr P C_total
  pure ⟨disk_i.name, disk_j.name, r, P, C_total, c⟩

/-- evaluate_all_configs: iterate itertools.product(enumerate(disks),
repeat=2) — log disk outer, data disk inner — and r_values innermost,
appending one row per triple.  An exception in any iteration aborts the
whole call with no partial result, which `List.mapM` over `Option`
reproduces (fail-fast, left to right). -/
def evaluate_all_configs (disks : List DiskType) (C_server V_i V_j : ℚ)
    (r_values : List ℚ) : Option (List ConfigRow) :=
  ((disks.flatMap fun disk_i => disks.flatMap fun disk_j =>
      r_values.map fun r => (disk_i, disk_j, r)).mapM
    fun t => config_row C_server V_i V_j t.1 t.2.1 t.2.2)

/-- One row of the DataFrame built by compute_ucpr. -/
structure UcprRow where
  log_disk : String
  data_disk : String
  UCPR : ℚ
deriving DecidableEq

/-- The UCPR value computed inside compute_ucpr for one pair:
if W_i == R_j then W_i / C_total else
(W_i * R_j) / (W_i - R_j) * lg (W_i / R_j) / C_total,
with the Python divisions raising on zero divisors in evaluation order
(in the general branch W_i - R_j is nonzero, W_i / R_j raises when
R_j = 0, and the final / C_total raises when C_total = 0). -/
def ucpr_value (lg : ℚ → ℚ) (W_i R_j C_total : ℚ) : Option ℚ :=
  if W_i = R_j then
    if C_total = 0 then none else some (W_i / C_total)
  else
    if R_j = 0 then none
    else if C_total = 0 then none
    else some ((W_i * R_j) / (W_i - R_j) * lg (W_i / R_j) / C_total)

/-- compute_ucpr: iterate itertools.product(disks, repeat=2) and compute
the closed-form UCPR per ordered pair. -/
def compute_ucpr (lg : ℚ → ℚ) (disks : List DiskType)
    (C_server V_i V_j : ℚ) : Option (List UcprRow) :=
  ((disks.flatMap fun disk_i => disks.map fun disk_j =>
      (disk_i, disk_j)).mapM
    fun p =>
      (ucpr_value lg p.1.W p.2.R
          (cost_of_configuration C_server V_i V_j p.1.M p.2.M)).map
        fun u => ⟨p.1.name, p.2.name, u⟩)

/-- Example disk HDD from the main program:
DiskType("HDD", 30000, 81000, 0.00049). -/
def hdd : DiskType := ⟨"HDD", 30000, 81000, 49 / 100000⟩

/-- Example disk SSD from the main program:
DiskType("SSD", 39900, 89000, 0.0042). -/
def ssd : DiskType := ⟨"SSD", 39900, 89000, 42 / 10000⟩

/-- The row that config_row produces on the success path (all divisors
nonzero), as a total function. -/
def mk_row (C_server V_i V_j : ℚ) (disk_i disk_j : DiskType) (r : ℚ) :
    ConfigRow :=
  ⟨disk_i.name, disk_j.name, r,
    1 / (r / disk_j.R + (1 - r) / disk_i.W),
    cost_of_configuration C_server V_i V_j disk_i.M disk_j.M,
    (1 / (r / disk_j.R + (1 - r) / disk_i.W)) /
      cost_of_configuration C_server V_i V_j disk_i.M disk_j.M⟩

/-- The full result table of evaluate_all_configs on valid input: the
cross product log disk outer, data disk inner, read ratio innermost. -/
def all_rows (disks : List DiskType) (C_server V_i V_j : ℚ)
    (r_values : List ℚ) : List ConfigRow :=
  disks.flatMap fun disk_i => disks.flatMap fun disk_j =>
    r_values.map fun r => mk_row C_server V_i V_j disk_i disk_j r

/-
Helper lemmas.
-/

lemma denom_pos (W R r : ℚ) (hW : 0 < W) (hR : 0 < R) (h0 : 0 ≤ r)
    (h1 : r ≤ 1) : 0 < r / R + (1 - r) / W := by
  rcases h0.lt_or_eq with h | h
  · have hx : 0 < r / R := div_pos h hR
    have hy : 0 ≤ (1 - r) / W := div_nonneg (by linarith) hW.le
    linarith
  · rw [← h]
    have hy : 0 < (1 - 0) / W := by
      rw [sub_zero]
      exact one_div_pos.2 hW
    simpa using hy

lemma throughput_eq (W R r : ℚ) (hW : 0 < W) (hR : 0 < R) (h0 : 0 ≤ r)
    (h1 : r ≤ 1) :
    throughput_of_configuration W R r = some (1 / (r / R + (1 - r) / W)) := by
  have hd := denom_pos W R r hW hR h0 h1
  simp [throughput_of_configuration, hR.ne', hW.ne', hd.ne']

lemma cost_pos (C_server V_i V_j M_i M_j : ℚ) (hcs : 0 ≤ C_server)
    (hvi : 0 < V_i) (hvj : 0 < V_j) (hmi : 0 < M_i) (hmj : 0 < M_j) :
    0 < cost_of_configuration C_server V_i V_j M_i M_j := by
  have h1 := mul_pos hvi hmi
  have h2 := mul_pos hvj hmj
  unfold cost_of_configuration
  linarith

lemma config_row_eq (C_server V_i V_j : ℚ) (disk_i disk_j : DiskType) (r : ℚ)
    (hW : 0 < disk_i.W) (hR : 0 < disk_j.R) (h0 : 0 ≤ r) (h1 : r ≤ 1)
    (hC : 0 < cost_of_configuration C_server V_i V_j disk_i.M disk_j.M) :
    config_row C_server V_i V_j disk_i disk_j r =
      some (mk_row C_server V_i V_j disk_i disk_j r) := by
  simp [config_row, throughput_eq disk_i.W disk_j.R r hW hR h0 h1, cpr,
    hC.ne', mk_row]

lemma mapM_eq_map {α β : Type} (f : α → Option β) (g : α → β) (l : List α)
    (h : ∀ a ∈ l, f a = some (g a)) : l.mapM f = some (l.map g) := by
  induction l with
  | nil => rfl
  | cons a l ih =>
    rw [List.mapM_cons, h a (by simp), ih (fun x hx => h x (by simp [hx]))]
    rfl

lemma flatMap_length_const {α β : Type} (l : List α) (g : α → List β) (m : ℕ)
    (h : ∀ a ∈ l, (g a).length = m) : (l.flatMap g).length = l.length * m := by
  induction l with
  | nil => simp
  | cons a l ih =>
    rw [List.flatMap_cons, List.length_append, h a (by simp),
      ih (fun x hx => h x (by simp [hx])), List.length_cons, Nat.succ_mul]
    omega

lemma flatMap_getElem_const {α β : Type} (l : List α) (g : α → List β)
    (m : ℕ) : ∀ (i j : ℕ) (hi : i < l.length),
    (∀ a ∈ l, (g a).length = m) → j < m →
    (l.flatMap g)[i * m + j]? = (g (l.get ⟨i, hi⟩))[j]? := by
  induction l with
  | nil => intro i j hi; exact absurd hi (by simp)
  | cons a l ih =>
    intro i j hi h hj
    cases i with
    | zero =>
      rw [List.flatMap_cons, List.getElem?_append_left]
      · simp
      · rw [h a (by simp)]
        simpa using hj
    | succ i =>
      have ha : (g a).length = m := h a (by simp)
      have hle : (g a).length ≤ (i + 1) * m + j := by
        rw [ha, Nat.succ_mul]; omega
      rw [List.flatMap_cons, List.getElem?_append_right hle, ha]
      have harith : (i + 1) * m + j - m = i * m + j := by
        rw [Nat.succ_mul]; omega
      rw [harith]
      have hi2 : i < l.length := by simpa using Nat.lt_of_succ_lt_succ hi
      rw [ih i j hi2 (fun x hx => h x (by simp [hx])) hj]
      rfl

lemma mul_add_lt (j k n m : ℕ) (hj : j < n) (hk : k < m) :
    j * m + k < n * m :=
  calc j * m + k < j * m + m := by omega
  _ = (j + 1) * m := (Nat.succ_mul j m).symm
  _ ≤ n * m := Nat.mul_le_mul_right m (Nat.succ_le_of_lt hj)

lemma mul_add_inj (a b k l m : ℕ) (hk : k < m) (hl : l < m)
    (h : a * m + k = b * m + l) : a = b ∧ k = l := by
  have hm : 0 < m := lt_of_le_of_lt (Nat.zero_le k) hk
  have e1 : (a * m + k) % m = k := by
    rw [Nat.mul_comm, Nat.mul_add_mod]
    exact Nat.mod_eq_of_lt hk
  have e2 : (b * m + l) % m = l := by
    rw [Nat.mul_comm, Nat.mul_add_mod]
    exact Nat.mod_eq_of_lt hl
  have hkl : k = l := by rw [← e1, h, e2]
  subst hkl
  have hab : a * m = b * m := by omega
  exact ⟨Nat.eq_of_mul_eq_mul_right hm hab, rfl⟩

/-
Claims.
-/

/-- Claim C1: for every disk pair with positive W_log, R_data and C_total,
compute_ucpr's per-pair value is W_log / C_total when W_log equals R_data
exactly, and W_log * R_data / (W_log - R_data) * log (W_log / R_data) /
C_total otherwise; for W = R = 50000 and C_total = 10 it is exactly 5000
via the equal-case branch, for every interpretation lg of the logarithm
(so the general formula, and in particular any 0/0 form, is never
evaluated there). -/
theorem ucpr_equal_branch (lg : ℚ → ℚ) (W R C : ℚ) (hW : 0 < W)
    (hR : 0 < R) (hC : 0 < C) :
    (W = R → ucpr_value lg W R C = some (W / C)) ∧
    (W ≠ R → ucpr_value lg W R C =
      some ((W * R) / (W - R) * lg (W / R) / C)) ∧
    ucpr_value lg 50000 50000 10 = some 5000 := by
  refine ⟨fun h => ?_, fun h => ?_, ?_⟩
  · simp [ucpr_value, h, hC.ne']
  · simp [ucpr_value, h, hR.ne', hC.ne']
  · norm_num [ucpr_value]

/-- Witness for C1 at lg = id, W = R = 50000, C_total = 10. -/
theorem ucpr_equal_branch_spot :
    (0 : ℚ) < 50000 ∧ (0 : ℚ) < 10 ∧
    ucpr_value (fun x => x) 50000 50000 10 = some 5000 :=
  ⟨by norm_num, by norm_num,
    (ucpr_equal_branch (fun x => x) 50000 50000 10 (by norm_num)
      (by norm_num) (by norm_num)).2.2⟩

/-- Claim C10: compute_ucpr on an empty disk list returns an empty result
table (no error) for every logarithm interpretation and all parameters. -/
theorem compute_ucpr_empty (lg : ℚ → ℚ) (C_server V_i V_j : ℚ) :
    compute_ucpr lg [] C_server V_i V_j = some [] := rfl

/-- Claim C6: at r = 0 the throughput is exactly W, at r = 1 exactly R,
for every positive W and R. -/
theorem throughput_endpoints (W R : ℚ) (hW : 0 < W) (hR : 0 < R) :
    throughput_of_configuration W R 0 = some W ∧
    throughput_of_configuration W R 1 = some R := by
  constructor
  · rw [throughput_eq W R 0 hW hR le_rfl zero_le_one]
    norm_num
  · rw [throughput_eq W R 1 hW hR zero_le_one le_rfl]
    norm_num

/-- Witness for C6 at W = 2, R = 3. -/
theorem throughput_endpoints_spot :
    (0 : ℚ) < 2 ∧ (0 : ℚ) < 3 ∧
    throughput_of_configuration 2 3 0 = some 2 ∧
    throughput_of_configuration 2 3 1 = some 3 :=
  ⟨by norm_num, by norm_num,
    (throughput_endpoints 2 3 (by norm_num) (by norm_num)).1,
    (throughput_endpoints 2 3 (by norm_num) (by norm_num)).2⟩

/-- Claim C8: cpr is homogeneous in its first argument: cpr (k * P) C is
k times cpr P C, for positive C and k. -/
theorem cpr_scaling (P C k : ℚ) (hC : 0 < C) (hk : 0 < k) :
    cpr (k * P) C = Option.map (fun x => k * x) (cpr P C) := by
  simp [cpr, hC.ne']
  rw [mul_div_assoc]

/-- Witness for C8 at P = 5, C = 2, k = 3. -/
theorem cpr_scaling_spot :
    (0 : ℚ) < 2 ∧ (0 : ℚ) < 3 ∧
    cpr (3 * 5) 2 = Option.map (fun x => 3 * x) (cpr 5 2) :=
  ⟨by norm_num, by norm_num, cpr_scaling 5 2 3 (by norm_num) (by norm_num)⟩

/-- Claim C9: for W > 0, R > 0 and r in the unit interval the denominator
r / R + (1 - r) / W is strictly positive, no division by zero is reached
(the call returns normally), and the returned throughput is strictly
positive. -/
theorem throughput_safe (W R r : ℚ) (hW : 0 < W) (hR : 0 < R) (h0 : 0 ≤ r)
    (h1 : r ≤ 1) :
    0 < r / R + (1 - r) / W ∧
    throughput_of_configuration W R r = some (1 / (r / R + (1 - r) / W)) ∧
    0 < 1 / (r / R + (1 - r) / W) := by
  have hd := denom_pos W R r hW hR h0 h1
  exact ⟨hd, throughput_eq W R r hW hR h0 h1, one_div_pos.2 hd⟩

/-- Witness for C9 at W = 1, R = 2, r = 1/2. -/
theorem throughput_safe_spot :
    (0 : ℚ) < 1 ∧ (0 : ℚ) < 2 ∧ (0 : ℚ) ≤ 1 / 2 ∧ (1 : ℚ) / 2 ≤ 1 ∧
    (0 < (1 : ℚ) / 2 / 2 + (1 - 1 / 2) / 1 ∧
      throughput_of_configuration 1 2 (1 / 2) =
        some (1 / ((1 : ℚ) / 2 / 2 + (1 - 1 / 2) / 1)) ∧
      0 < 1 / ((1 : ℚ) / 2 / 2 + (1 - 1 / 2) / 1)) :=
  ⟨by norm_num, by norm_num, by norm_num, by norm_num,
    throughput_safe 1 2 (1 / 2) (by norm_num) (by norm_num) (by norm_num)
      (by norm_num)⟩

/-- Counterexample to claim C3 as stated: throughput_of_configuration does
not fail on r outside the unit interval or on a negative rate; at
r = 3/2 (with valid rates) it returns 540000, and at W = -30000 (with
r = 1/2) it returns -1620000/17, in both cases a normal return where the
claim demands an InvalidParameter failure. -/
theorem throughput_no_validation_cex :
    throughput_of_configuration 30000 81000 (3 / 2) = some 540000 ∧
    throughput_of_configuration (-30000) 81000 (1 / 2) =
      some (-1620000 / 17) := by
  constructor
  · norm_num [throughput_of_configuration]
  · norm_num [throughput_of_configuration]

/-- Claim C3 amended: throughput_of_configuration performs no input
validation at all — out-of-range r and negative rates are evaluated like
any other input (r = 3/2 returns 540000); the only failures are the
ZeroDivisionErrors of the formula itself, e.g. a zero W or a zero R
always fails. -/
theorem throughput_no_validation :
    throughput_of_configuration 30000 81000 (3 / 2) = some 540000 ∧
    (∀ (R r : ℚ), throughput_of_configuration 0 R r = none) ∧
    (∀ (W r : ℚ), throughput_of_configuration W 0 r = none) := by
  refine ⟨by norm_num [throughput_of_configuration], fun R r => ?_,
    fun W r => ?_⟩
  · by_cases hR : R = 0 <;> simp [throughput_of_configuration, hR]
  · simp [throughput_of_configuration]

/-- Claim C7: on the unit interval the throughput is non-decreasing in r
when W < R and non-increasing when W > R (both calls return normally and
their values compare as claimed). -/
theorem throughput_monotone (W R r1 r2 : ℚ) (hW : 0 < W) (hR : 0 < R)
    (h0 : 0 ≤ r1) (h12 : r1 ≤ r2) (h21 : r2 ≤ 1) :
    (W < R →
      throughput_of_configuration W R r1 =
        some (1 / (r1 / R + (1 - r1) / W)) ∧
      throughput_of_configuration W R r2 =
        some (1 / (r2 / R + (1 - r2) / W)) ∧
      1 / (r1 / R + (1 - r1) / W) ≤ 1 / (r2 / R + (1 - r2) / W)) ∧
    (R < W →
      throughput_of_configuration W R r1 =
        some (1 / (r1 / R + (1 - r1) / W)) ∧
      throughput_of_configuration W R r2 =
        some (1 / (r2 / R + (1 - r2) / W)) ∧
      1 / (r2 / R + (1 - r2) / W) ≤ 1 / (r1 / R + (1 - r1) / W)) := by
  have h02 : 0 ≤ r2 := le_trans h0 h12
  have h11 : r1 ≤ 1 := le_trans h12 h21
  have e1 := throughput_eq W R r1 hW hR h0 h11
  have e2 := throughput_eq W R r2 hW hR h02 h21
  have d1 := denom_pos W R r1 hW hR h0 h11
  have d2 := denom_pos W R r2 hW hR h02 h21
  constructor
  · intro hWR
    refine ⟨e1, e2, ?_⟩
    have hinv : 1 / R ≤ 1 / W := one_div_le_one_div_of_le hW hWR.le
    have hfac : 0 ≤ (r2 - r1) * (1 / W - 1 / R) :=
      mul_nonneg (by linarith) (by linarith)
    have expand : (r1 / R + (1 - r1) / W) - (r2 / R + (1 - r2) / W) =
        (r2 - r1) * (1 / W - 1 / R) := by ring
    exact one_div_le_one_div_of_le d2 (by linarith)
  · intro hRW
    refine ⟨e1, e2, ?_⟩
    have hinv : 1 / W ≤ 1 / R := one_div_le_one_div_of_le hR hRW.le
    have hfac : 0 ≤ (r2 - r1) * (1 / R - 1 / W) :=
      mul_nonneg (by linarith) (by linarith)
    have expand : (r2 / R + (1 - r2) / W) - (r1 / R + (1 - r1) / W) =
        (r2 - r1) * (1 / R - 1 / W) := by ring
    exact one_div_le_one_div_of_le d1 (by linarith)

/-- Witness for C7 at W = 1, R = 2, r1 = 0, r2 = 1 (the W < R branch
applies, with 1 < 2). -/
theorem throughput_monotone_spot :
    (0 : ℚ) < 1 ∧ (0 : ℚ) < 2 ∧ (0 : ℚ) ≤ 0 ∧ (0 : ℚ) ≤ 1 ∧ (1 : ℚ) ≤ 1 ∧
    (throughput_of_configuration 1 2 0 =
        some (1 / ((0 : ℚ) / 2 + (1 - 0) / 1)) ∧
      throughput_of_configuration 1 2 1 =
        some (1 / ((1 : ℚ) / 2 + (1 - 1) / 1)) ∧
      1 / ((0 : ℚ) / 2 + (1 - 0) / 1) ≤ 1 / ((1 : ℚ) / 2 + (1 - 1) / 1)) :=
  ⟨by norm_num, by norm_num, le_rfl, by norm_num, le_rfl,
    (throughput_monotone 1 2 0 1 (by norm_num) (by norm_num) le_rfl
      (by norm_num) le_rfl).1 (by norm_num)⟩

/-- Claim C2: on a non-empty disk list (each disk with the data model's
positive W, R, M) and read ratios in the unit interval, with non-negative
server cost and positive capacities, evaluate_all_configs returns normally
with exactly n * n * m rows; the row at index
i * (n * m) + j * m + k is the one for (disk i as log, disk j as data,
ratio k), following input sequence order with the log disk outermost and
the ratio innermost, and distinct (i, j, k) occupy distinct indices, so
each combination appears exactly once. -/
theorem evaluate_all_complete (disks : List DiskType) (C_server V_i V_j : ℚ)
    (r_values : List ℚ)
    (hne : disks ≠ [])
    (hr : ∀ r ∈ r_values, 0 ≤ r ∧ r ≤ 1)
    (hd : ∀ d ∈ disks, 0 < d.W ∧ 0 < d.R ∧ 0 < d.M)
    (hcs : 0 ≤ C_server) (hvi : 0 < V_i) (hvj : 0 < V_j) :
    evaluate_all_configs disks C_server V_i V_j r_values =
      some (all_rows disks C_server V_i V_j r_values) ∧
    (all_rows disks C_server V_i V_j r_values).length =
      disks.length * disks.length * r_values.length ∧
    (∀ (i j k : ℕ) (hi : i < disks.length) (hj : j < disks.length)
        (hk : k < r_values.length),
      (all_rows disks C_server V_i V_j
          r_values)[i * (disks.length * r_values.length) +
            j * r_values.length + k]? =
        some (mk_row C_server V_i V_j (disks.get ⟨i, hi⟩)
          (disks.get ⟨j, hj⟩) (r_values.get ⟨k, hk⟩))) ∧
    (∀ i j k i2 j2 k2 : ℕ, i < disks.length → j < disks.length →
      k < r_values.length → i2 < disks.length → j2 < disks.length →
      k2 < r_values.length →
      i * (disks.length * r_values.length) + j * r_values.length + k =
        i2 * (disks.length * r_values.length) + j2 * r_values.length + k2 →
      i = i2 ∧ j = j2 ∧ k = k2) := by
  have hinner : ∀ di ∈ disks,
      (disks.flatMap fun dj =>
        r_values.map fun r => mk_row C_server V_i V_j di dj r).length =
      disks.length * r_values.length := fun di _ =>
    flatMap_length_const disks _ _ (fun dj _ => by simp)
  refine ⟨?_, ?_, ?_, ?_⟩
  · rw [evaluate_all_configs,
      mapM_eq_map _ (fun t => mk_row C_server V_i V_j t.1 t.2.1 t.2.2) _ ?_]
    · refine congrArg some ?_
      rw [List.map_flatMap, all_rows]
      refine List.flatMap_congr fun di _ => ?_
      rw [List.map_flatMap]
      refine List.flatMap_congr fun dj _ => ?_
      rw [List.map_map]
      rfl
    · intro t ht
      rw [List.mem_flatMap] at ht
      obtain ⟨di, hdi, ht⟩ := ht
      rw [List.mem_flatMap] at ht
      obtain ⟨dj, hdj, ht⟩ := ht
      rw [List.mem_map] at ht
      obtain ⟨r, hrr, rfl⟩ := ht
      exact config_row_eq C_server V_i V_j di dj r (hd di hdi).1
        (hd dj hdj).2.1 (hr r hrr).1 (hr r hrr).2
        (cost_pos C_server V_i V_j di.M dj.M hcs hvi hvj
          (hd di hdi).2.2 (hd dj hdj).2.2)
  · rw [all_rows, flatMap_length_const disks _ _ hinner, Nat.mul_assoc]
  · intro i j k hi hj hk
    have hjk : j * r_values.length + k <
        disks.length * r_values.length := mul_add_lt j k _ _ hj hk
    rw [all_rows, Nat.add_assoc,
      flatMap_getElem_const disks _ _ i (j * r_values.length + k) hi
        hinner hjk,
      flatMap_getElem_const disks _ _ j k hj (fun dj _ => by simp) hk,
      List.getElem?_map, List.getElem?_eq_getElem hk]
    rfl
  · intro i j k i2 j2 k2 hi hj hk hi2 hj2 hk2 heq
    rw [Nat.add_assoc, Nat.add_assoc] at heq
    obtain ⟨hii, hjk⟩ := mul_add_inj i i2 (j * r_values.length + k)
      (j2 * r_values.length + k2) (disks.length * r_values.length)
      (mul_add_lt j k _ _ hj hk) (mul_add_lt j2 k2 _ _ hj2 hk2) heq
    obtain ⟨hjj, hkk⟩ := mul_add_inj j j2 k k2 r_values.length hk hk2 hjk
    exact ⟨hii, hjj, hkk⟩

/-- Witness for C2 on the example disks and two read ratios. -/
theorem evaluate_all_complete_spot :
    ([hdd, ssd] : List DiskType) ≠ [] ∧
    (∀ r ∈ ([0, 1 / 2] : List ℚ), 0 ≤ r ∧ r ≤ 1) ∧
    (∀ d ∈ [hdd, ssd], 0 < d.W ∧ 0 < d.R ∧ 0 < d.M) ∧
    (0 : ℚ) ≤ 3696 / 1000 ∧ (0 : ℚ) < 150 ∧ (0 : ℚ) < 150 ∧
    evaluate_all_configs [hdd, ssd] (3696 / 1000) 150 150 [0, 1 / 2] =
      some (all_rows [hdd, ssd] (3696 / 1000) 150 150 [0, 1 / 2]) ∧
    (all_rows [hdd, ssd] (3696 / 1000) 150 150 [0, 1 / 2]).length =
      ([hdd, ssd] : List DiskType).length *
        ([hdd, ssd] : List DiskType).length *
        ([0, 1 / 2] : List ℚ).length := by
  refine ⟨by simp, by norm_num, by norm_num [hdd, ssd], by norm_num,
    by norm_num, by norm_num, ?_, ?_⟩
  · exact (evaluate_all_complete [hdd, ssd] (3696 / 1000) 150 150 [0, 1 / 2]
      (by simp) (by norm_num) (by norm_num [hdd, ssd]) (by norm_num)
      (by norm_num) (by norm_num)).1
  · exact (evaluate_all_complete [hdd, ssd] (3696 / 1000) 150 150 [0, 1 / 2]
      (by simp) (by norm_num) (by norm_num [hdd, ssd]) (by norm_num)
      (by norm_num) (by norm_num)).2.1

/-- Counterexample to claim C4 as stated: evaluate_all_configs does not
fail on an empty disk list or on an out-of-range r; it returns an empty
table for the empty list and a normal one-row table for r = 3/2. -/
theorem evaluate_all_no_validation_cex :
    evaluate_all_configs [] 1 1 1 [1 / 2] = some [] ∧
    evaluate_all_configs [hdd] (3696 / 1000) 150 150 [3 / 2] =
      some [⟨"HDD", "HDD", 3 / 2, 540000, 3843 / 1000, 60000000 / 427⟩] := by
  constructor
  · rfl
  · norm_num [evaluate_all_configs, config_row, throughput_of_configuration,
      cpr, cost_of_configuration, hdd, List.mapM.loop]

/-- Claim C4 amended: evaluate_all_configs performs no validation of its
inputs: an empty disk list yields an empty result table (for any
parameters, with no error), and r values outside the unit interval such
as r = 3/2 are evaluated like any other, the only possible failures being
the ZeroDivisionErrors of the row computations themselves. -/
theorem evaluate_all_no_validation :
    (∀ (C_server V_i V_j : ℚ) (r_values : List ℚ),
      evaluate_all_configs [] C_server V_i V_j r_values = some []) ∧
    evaluate_all_configs [hdd] (3696 / 1000) 150 150 [3 / 2] =
      some [⟨"HDD", "HDD", 3 / 2, 540000, 3843 / 1000, 60000000 / 427⟩] := by
  constructor
  · intro C_server V_i V_j r_values
    rfl
  · norm_num [evaluate_all_configs, config_row, throughput_of_configuration,
      cpr, cost_of_configuration, hdd, List.mapM.loop]

/-- Counterexample to claim C5 as stated: on the claim's concrete input
the log=HDD, data=HDD row at r = 0 has throughput 30000 and total cost
3843/1000 as claimed, but its CPR, 30000 / 3.843 = 10000000/1281 =
7806.40..., is not approximately 7807.7 — it differs from 7807.7 by more
than 1/2 (the error is about 1.3). -/
theorem concrete_scenario_cex :
    (evaluate_all_configs [hdd, ssd] (3696 / 1000) 150 150 [0]).bind
        List.head? =
      some ⟨"HDD", "HDD", 0, 30000, 3843 / 1000, 10000000 / 1281⟩ ∧
    ¬ (abs ((10000000 : ℚ) / 1281 - 78077 / 10) < 1 / 2) := by
  constructor
  · norm_num [evaluate_all_configs, config_row, throughput_of_configuration,
      cpr, cost_of_configuration, hdd, ssd, List.mapM.loop]
  · rw [abs_sub_lt_iff]
    norm_num

/-- Claim C5 amended: on the concrete input disks = [HDD, SSD],
C_server = 3.696, V_log = V_data = 150, the result row for log=HDD,
data=HDD at r = 0.0 has throughput 30000, total cost
3.696 + 150 * 0.00049 + 150 * 0.00049 = 3.843, and
CPR = 30000 / 3.843 = 10000000/1281, which is approximately 7806.4
(not 7807.7). -/
theorem concrete_scenario :
    (evaluate_all_configs [hdd, ssd] (3696 / 1000) 150 150 [0]).bind
        List.head? =
      some ⟨"HDD", "HDD", 0, 30000, 3843 / 1000, 10000000 / 1281⟩ ∧
    (3843 : ℚ) / 1000 =
      3696 / 1000 + 150 * (49 / 100000) + 150 * (49 / 100000) ∧
    (10000000 : ℚ) / 1281 = 30000 / (3843 / 1000) ∧
    abs ((10000000 : ℚ) / 1281 - 78064 / 10) < 1 / 10 := by
  refine ⟨?_, by norm_num, by norm_num, ?_⟩
  · norm_num [evaluate_all_configs, config_row, throughput_of_configuration,
      cpr, cost_of_configuration, hdd, ssd, List.mapM.loop]
  · rw [abs_sub_lt_iff]
    norm_num

end ATLAS
